import Mathlib

/-!
Verification development for the `automatic-guacamole` dashboard scripts.

The repository consists of three Python scripts:

* `scripts/build_dashboard_from_meta_issue.py` — parses a "meta" issue body
  into category sections, fetches each referenced issue (best effort) and
  assembles a dashboard JSON document;
* `scripts/build_dashboard_from_repo_issues.py` — pages through all issues of
  a repository, classifies each with keyword heuristics and assembles the same
  dashboard document shape;
* `scripts/dev_dashboard_server.py` — a small HTTP dev server with refresh
  endpoints that shell out to the two generators.

This file gives a shallow embedding of the pure logic of those scripts.
Strings are modelled as `List Char` (`Str`).  Python whitespace handling,
`casefold`/`lower` and the `\w`/`\d` regex character classes are modelled over
ASCII, which covers every string literal appearing in the scripts.
-/

namespace Guac

/-- Strings are modelled as lists of characters. -/
abbrev Str := List Char

/-- ASCII whitespace, the model of Python's `str.strip` character set and the
regex class `\s` as used by the scripts (all on ASCII data). -/
def isPySpace (c : Char) : Bool :=
  c = ' ' || c = '\t' || c = '\n' || c = '\r' || c = '\x0b' || c = '\x0c'

/-- Model of the regex word class `\w` (ASCII fragment): letters, digits and
underscore.  Used for the `\b` boundary in the issue-reference pattern. -/
def isWordChar (c : Char) : Bool :=
  c.isAlphanum || c = '_'

/-- `p` is a leading segment of `s` (Python `str.startswith`). -/
def hasLead : Str → Str → Bool
  | [], _ => true
  | _ :: _, [] => false
  | p :: ps, c :: cs => p = c && hasLead ps cs

/-- `t` is a trailing segment of `s` (Python `str.endswith`). -/
def hasTail (t s : Str) : Bool :=
  hasLead t.reverse s.reverse

/-- Drop leading and trailing ASCII whitespace (Python `str.strip()`). -/
def pyStrip (s : Str) : Str :=
  ((s.dropWhile isPySpace).reverse.dropWhile isPySpace).reverse

/-- Python `str.lower` / `str.casefold` restricted to ASCII data: both map
`A`-`Z` to `a`-`z` and leave everything else unchanged. -/
def pyLower (s : Str) : Str :=
  s.map Char.toLower

/-- Worker for `collapseWs`: `inRun` records whether the previous character
was part of a whitespace run that has already emitted its single space. -/
def collapseWsGo : Bool → Str → Str
  | _, [] => []
  | inRun, c :: rest =>
    if isPySpace c then
      if inRun then collapseWsGo true rest
      else ' ' :: collapseWsGo true rest
    else c :: collapseWsGo false rest

/-- Collapse every maximal whitespace run into a single space
(the regex substitution `re.sub(r"\s+", " ", ·)`). -/
def collapseWs (s : Str) : Str :=
  collapseWsGo false s

/-- `_normalize_ws` from both generator scripts:
`re.sub(r"\s+", " ", s.strip())`. -/
def normalize_ws (s : Str) : Str :=
  collapseWs (pyStrip s)

/-- `_normalize_key` from `build_dashboard_from_meta_issue.py`:
`_normalize_ws(s).casefold()`. -/
def normalize_key (s : Str) : Str :=
  pyLower (normalize_ws s)

/-- Python `str.splitlines` line-break characters (ASCII fragment plus the
Unicode breaks Python recognizes). -/
def isLineBreak (c : Char) : Bool :=
  c = '\n' || c = '\r' || c = '\x0b' || c = '\x0c' ||
  c = '\x1c' || c = '\x1d' || c = '\x1e' || c = '\u0085' ||
  c = '\u2028' || c = '\u2029'

/-- Python `str.splitlines()`: split at line-break characters, treating
`\r\n` as a single break; a trailing break does not create an empty final
line, and `"".splitlines() = []`. -/
def pySplitlines : Str → List Str :=
  go []
where
  go (acc : Str) : Str → List Str
    | [] => if acc = [] then [] else [acc.reverse]
    | '\r' :: '\n' :: rest => acc.reverse :: go [] rest
    | c :: rest =>
      if isLineBreak c then acc.reverse :: go [] rest
      else go (c :: acc) rest

/-- `raw_line.rstrip("\n")` as used in `parse_meta_issue_body`. -/
def rstripNl (s : Str) : Str :=
  (s.reverse.dropWhile (· = '\n')).reverse

/-! ### Markdown decoration stripping (`_strip_md_decorations`) -/

/-- Whether a string starts with a whitespace character. -/
def headIsSpace : Str → Bool
  | [] => false
  | c :: _ => isPySpace c

/-- The substitution `re.sub(r"^#{1,6}\s+", "", s)`: one to six leading `#`
followed by at least one whitespace character; the `#`s and the (maximal)
whitespace run are removed.  Seven or more `#`s never match. -/
def stripHeadingMarkers (s : Str) : Str :=
  let hs := s.takeWhile (· = '#')
  let rest := s.drop hs.length
  if 1 ≤ hs.length ∧ hs.length ≤ 6 ∧ headIsSpace rest then
    rest.dropWhile isPySpace
  else s

/-- The substitution `re.sub(r"^[-*+]\s+", "", s)`. -/
def stripListMarker (s : Str) : Str :=
  match s with
  | c :: c2 :: rest =>
    if (c = '-' ∨ c = '*' ∨ c = '+') ∧ isPySpace c2 then
      (c2 :: rest).dropWhile isPySpace
    else s
  | _ => s

/-- The substitution `re.sub(r"^\d+[.)]\s+", "", s)`: a maximal leading digit
run, one of `.` or `)`, at least one whitespace character. -/
def stripOrderedMarker (s : Str) : Str :=
  let ds := s.takeWhile Char.isDigit
  match s.drop ds.length with
  | p :: c :: rest2 =>
    if ds ≠ [] ∧ (p = '.' ∨ p = ')') ∧ isPySpace c then
      (c :: rest2).dropWhile isPySpace
    else s
  | _ => s

/-- One full-string wrapper substitution such as `re.sub(r"^\*\*(.+)\*\*$",
r"\1", s)`: if `s` is `w ++ inner ++ w` with `inner` nonempty and free of
`\n` (the regex `.` does not match a newline), return `inner`. -/
def stripWrap (w : Str) (s : Str) : Str :=
  let inner := (s.drop w.length).take (s.length - 2 * w.length)
  if s.length ≥ 2 * w.length + 1 ∧ hasLead w s ∧ hasTail w s ∧ inner.all (· ≠ '\n') then
    inner
  else s

/-- The substitution `re.sub(r":\s*$", "", s)`: remove one trailing colon
together with the whitespace following it. -/
def stripTrailingColon (s : Str) : Str :=
  match s.reverse.dropWhile isPySpace with
  | ':' :: t => t.reverse
  | _ => s

/-- `_strip_md_decorations` from `build_dashboard_from_meta_issue.py`: strip,
then the heading / list / ordered-list markers, the four bold/italic
wrappers (in source order `**`, `__`, `*`, `_`), the trailing colon, and
finally `_normalize_ws`. -/
def strip_md_decorations (s : Str) : Str :=
  normalize_ws
    (stripTrailingColon
      (stripWrap ['_']
        (stripWrap ['*']
          (stripWrap ['_', '_']
            (stripWrap ['*', '*']
              (stripOrderedMarker
                (stripListMarker
                  (stripHeadingMarkers (pyStrip s)))))))))

/-! ### Issue-number extraction (`extract_issue_numbers`) -/

/-- Decimal digits to a natural number. -/
def digitsToNat (ds : Str) : Nat :=
  ds.foldl (fun a c => 10 * a + (c.toNat - 48)) 0

/-- Literal of the issue-reference pattern. -/
def issuesLit : Str := "/issues/".data

/-- Attempt to match the regex `/issues/(\d+)\b` at the head of `cs`,
returning the referenced number.  The digit run is maximal, and the `\b`
boundary demands that the character following it (if any) is not a word
character. -/
def tryIssueAt (cs : Str) : Option Nat :=
  if hasLead issuesLit cs then
    let rest := cs.drop issuesLit.length
    let ds := rest.takeWhile Char.isDigit
    if ds = [] then none
    else
      match rest.drop ds.length with
      | [] => some (digitsToNat ds)
      | c :: _ => if isWordChar c then none else some (digitsToNat ds)
  else none

/-- All matches of `/issues/(\d+)\b` in a string.  Position-by-position
scanning coincides with `re.finditer` here because a match region
(`/issues/` plus digits) cannot contain the start of another match. -/
def findIssueNums : Str → List Nat
  | [] => []
  | c :: tl =>
    match tryIssueAt (c :: tl) with
    | some n => n :: findIssueNums tl
    | none => findIssueNums tl

/-- `extract_issue_numbers` from `build_dashboard_from_meta_issue.py`.  The
Python function returns a `set`; it is modelled as the deduplicated list of
matches (membership is the only observation the scripts make). -/
def extract_issue_numbers (text : Str) : List Nat :=
  (findIssueNums text).dedup

/-! ### The meta-issue section parser (`parse_meta_issue_body`) -/

/-- The five fixed category labels (`KNOWN_CATEGORIES`, identical in both
generator scripts). -/
def KNOWN_CATEGORIES : List Str :=
  [ "Grammar/Spelling".data,
    "Deprecated/Potentially Outdated Content".data,
    "Suggested Content Updates".data,
    "Other (Support/Ambiguous/Process)".data,
    "Placeholders (Template-Incomplete)".data ]

/-- `known_keys = [_normalize_key(c) for c in KNOWN_CATEGORIES]`. -/
def knownKeys : List Str :=
  KNOWN_CATEGORIES.map normalize_key

/-- The heading test of `parse_meta_issue_body`: the candidate is nonempty
and its normalized key equals a known category key or starts with one
followed by a space. -/
def isRecognizedCandidate (candidate : Str) : Bool :=
  candidate ≠ [] &&
    knownKeys.any (fun k =>
      normalize_key candidate = k || hasLead (k ++ [' ']) (normalize_key candidate))

/-- A raw line is treated as a category marker when its decoration-stripped
candidate is recognized. -/
def isHeadingLine (rawLine : Str) : Bool :=
  isRecognizedCandidate (strip_md_decorations (rstripNl rawLine))

/-- First-match lookup in an association list, modelling Python `dict`
membership and indexing for the parser's `mapping`. -/
def lookupNum : List (Nat × Str) → Nat → Option Str
  | [], _ => none
  | (k, v) :: t, n => if k = n then some v else lookupNum t n

/-- `for n in extract_issue_numbers(line): if n not in mapping: mapping[n] =
current_category` — insert each number under `c` unless already present. -/
def insertRefs (M : List (Nat × Str)) (c : Str) (ns : List Nat) : List (Nat × Str) :=
  ns.foldl (fun m n =>
    match lookupNum m n with
    | none => m ++ [(n, c)]
    | some _ => m) M

/-- The loop state of `parse_meta_issue_body`. -/
structure ParseState where
  currentCategory : Option Str
  mapping : List (Nat × Str)
deriving DecidableEq

/-- One iteration of the `for raw_line in body.splitlines()` loop of
`parse_meta_issue_body`. -/
def stepLine (st : ParseState) (rawLine : Str) : ParseState :=
  let line := rstripNl rawLine
  let candidate := strip_md_decorations line
  if isRecognizedCandidate candidate then
    ⟨some candidate, st.mapping⟩
  else
    match st.currentCategory with
    | none => st
    | some c => ⟨some c, insertRefs st.mapping c (extract_issue_numbers line)⟩

/-- The parser's loop over a list of lines, starting with no current
category and an empty mapping. -/
def parseLines (lines : List Str) : ParseState :=
  lines.foldl stepLine ⟨none, []⟩

/-- `parse_meta_issue_body` from `build_dashboard_from_meta_issue.py`:
the mapping of issue number to category label accumulated over the body's
lines. -/
def parse_meta_issue_body (body : Str) : List (Nat × Str) :=
  (parseLines (pySplitlines body)).mapping

/-! ### Keyword classifier (`build_dashboard_from_repo_issues.py`) -/

/-- `MODULE_UPDATE_REQUEST_CATEGORY`. -/
def MODULE_UPDATE_REQUEST_CATEGORY : Str :=
  "MS Learn Module Update Request".data

/-- Python substring test `pat in hay` (empty pattern always matches). -/
def strContainsSub (hay pat : Str) : Bool :=
  match hay with
  | [] => pat = []
  | _ :: t => hasLead pat hay || strContainsSub t pat

/-- `_text_contains_any(haystack, needles)`:
`h = haystack.casefold(); any(n.casefold() in h for n in needles)`. -/
def text_contains_any (haystack : Str) (needles : List Str) : Bool :=
  needles.any (fun n => strContainsSub (pyLower haystack) (pyLower n))

/-- Consume `lit` (given in lowercase) case-insensitively from the head of
`s`, returning the remainder. -/
def eatCI : Str → Str → Option Str
  | [], s => some s
  | _ :: _, [] => none
  | l :: ls, c :: cs => if c.toLower = l then eatCI ls cs else none

/-- The anchored search of `_TITLE_PREFIX_RE = re.compile(r"^\s*ms\s*learn\s*`
`module\s*update\s*request\s*:\s*", re.IGNORECASE)`: literal words matched
case-insensitively with arbitrary whitespace runs between them, followed by a
colon.  Each `\s*` is taken greedily, which is exact here because every
following literal starts with a non-space character. -/
def matchesModuleTitleRe (s : Str) : Bool :=
  (do
    let s1 ← eatCI "ms".data ((s : Str).dropWhile isPySpace)
    let s2 ← eatCI "learn".data (s1.dropWhile isPySpace)
    let s3 ← eatCI "module".data (s2.dropWhile isPySpace)
    let s4 ← eatCI "update".data (s3.dropWhile isPySpace)
    let s5 ← eatCI "request".data (s4.dropWhile isPySpace)
    let s6 ← eatCI ":".data (s5.dropWhile isPySpace)
    pure s6).isSome

/-- `_category_from_title` from `build_dashboard_from_repo_issues.py`. -/
def category_from_title (title : Str) : Option Str :=
  if matchesModuleTitleRe title then some MODULE_UPDATE_REQUEST_CATEGORY
  else none

/-- Keyword family for Grammar/Spelling. -/
def grammarKeywords : List Str :=
  ["grammar".data, "spelling".data, "typo".data, "typos".data,
   "misspelling".data, "punctuation".data]

/-- Keyword family for Placeholders (Template-Incomplete). -/
def placeholderKeywords : List Str :=
  ["placeholder".data, "template".data, "tbd".data, "replace_with".data,
   "replace with".data, "lorem ipsum".data, "todo:".data]

/-- Keyword family for Deprecated/Potentially Outdated Content. -/
def deprecatedKeywords : List Str :=
  ["deprecated".data, "outdated".data, "obsolete".data, "no longer".data,
   "old version".data, "deprecation".data]

/-- Keyword family for Suggested Content Updates. -/
def suggestionKeywords : List Str :=
  ["suggest".data, "suggestion".data, "content update".data,
   "update content".data, "needs update".data, "fix content".data,
   "improve".data, "clarify".data, "add section".data]

/-- `" | ".join(_normalize_ws(l) for l in (labels or []))`. -/
def labelBlob (labels : List Str) : Str :=
  List.intercalate " | ".data (labels.map normalize_ws)

/-- `"\n".join([title_norm, label_blob, body or ""]).strip()`. -/
def classifierBlob (title : Str) (labels : List Str) (body : Str) : Str :=
  pyStrip (List.intercalate ['\n'] [normalize_ws title, labelBlob labels, body])

/-- `categorize_issue_best_guess` from `build_dashboard_from_repo_issues.py`:
title-prefix bucket first, then the four keyword families in priority order,
then the catch-all. -/
def categorize_issue_best_guess (title : Str) (labels : List Str) (body : Str) : Str :=
  match category_from_title (normalize_ws title) with
  | some special => special
  | none =>
    let blob := classifierBlob title labels body
    if text_contains_any blob grammarKeywords then
      "Grammar/Spelling".data
    else if text_contains_any blob placeholderKeywords then
      "Placeholders (Template-Incomplete)".data
    else if text_contains_any blob deprecatedKeywords then
      "Deprecated/Potentially Outdated Content".data
    else if text_contains_any blob suggestionKeywords then
      "Suggested Content Updates".data
    else
      "Other (Support/Ambiguous/Process)".data

/-- The six labels the all-issues classifier can produce. -/
def allCategoryLabels : List Str :=
  KNOWN_CATEGORIES ++ [ MODULE_UPDATE_REQUEST_CATEGORY ]

/-! ### Datetimes

`datetime.fromisoformat` is modelled on the grammar fragment the scripts can
meet: `YYYY-MM-DD`, optionally followed by any single separator character and
`HH[:MM[:SS[.ffffff]]]` (fraction of one or more digits, truncated to
microseconds), optionally followed by an offset `±HH:MM[:SS]` whose absolute
value must be strictly below 24 hours.  Field ranges are validated as CPython
does (year 1-9999, hour 0-23, minute/second 0-59, day within the month).
A parsed datetime is represented by its proleptic-Gregorian wall-clock
reading and an optional UTC offset, both in microseconds. -/

/-- A parsed (possibly timezone-aware) datetime. -/
structure PyDateTime where
  year : Nat
  month : Nat
  day : Nat
  timeMicro : Int
  tzOffsetMicro : Option Int
deriving DecidableEq

/-- Microseconds per day. -/
def microPerDay : Int := 86400000000

/-- Gregorian leap year. -/
def isLeapYear (y : Nat) : Bool :=
  y % 4 = 0 && (y % 100 ≠ 0 || y % 400 = 0)

/-- Number of days of month `m` of year `y`. -/
def daysInMonth (y m : Nat) : Nat :=
  if m = 2 then (if isLeapYear y then 29 else 28)
  else if m = 4 ∨ m = 6 ∨ m = 9 ∨ m = 11 then 30
  else 31

/-- Days since 1970-01-01 of the proleptic Gregorian date `y-m-d`
(`y ≥ 1`), the standard civil-from-days construction. -/
def daysFromCivil (y m d : Nat) : Int :=
  let yy : Int := if m ≤ 2 then (y : Int) - 1 else (y : Int)
  let era : Int := yy / 400
  let yoe : Int := yy - era * 400
  let mp : Int := ((m : Int) + 9) % 12
  let doy : Int := (153 * mp + 2) / 5 + (d : Int) - 1
  let doe : Int := yoe * 365 + yoe / 4 - yoe / 100 + doy
  era * 146097 + doe - 719468

/-- Epoch microseconds of the wall-clock reading of a datetime. -/
def wallEpochMicro (d : PyDateTime) : Int :=
  daysFromCivil d.year d.month d.day * microPerDay + d.timeMicro

/-- Epoch microseconds of an aware datetime; a naive one is read as UTC
(the scripts always call `.replace(tzinfo=utc)` on naive values before
comparing). -/
def awareEpochMicro (d : PyDateTime) : Int :=
  wallEpochMicro d - d.tzOffsetMicro.getD 0

/-- Read exactly two decimal digits. -/
def read2 : Str → Option (Nat × Str)
  | a :: b :: r =>
    if a.isDigit ∧ b.isDigit then some (10 * (a.toNat - 48) + (b.toNat - 48), r)
    else none
  | _ => none

/-- Read exactly four decimal digits. -/
def read4 (s : Str) : Option (Nat × Str) :=
  match read2 s with
  | some (hi, r) =>
    match read2 r with
    | some (lo, r2) => some (100 * hi + lo, r2)
    | none => none
  | none => none

/-- Expect a single literal character. -/
def expectChar (c : Char) : Str → Option Str
  | x :: r => if x = c then some r else none
  | [] => none

/-- Read a fractional-second field: one or more digits after the separator,
truncated (CPython-style) to microsecond precision. -/
def readFraction (s : Str) : Option (Int × Str) :=
  let ds := s.takeWhile Char.isDigit
  if ds = [] then none
  else
    let six := ds.take 6 ++ List.replicate (6 - ds.length) '0'
    some ((digitsToNat six : Int), s.drop ds.length)

/-- Parse `[:MM[:SS[.ffffff]]]` after the hour, returning microseconds past
the hour. -/
def parseMinSec (s : Str) : Option (Int × Str) :=
  match expectChar ':' s with
  | none => some (0, s)
  | some r =>
    match read2 r with
    | none => none
    | some (mi, r2) =>
      if mi ≥ 60 then none
      else
        match expectChar ':' r2 with
        | none => some ((mi : Int) * 60000000, r2)
        | some r3 =>
          match read2 r3 with
          | none => none
          | some (ss, r4) =>
            if ss ≥ 60 then none
            else
              match (match r4 with
                     | c :: r5 => if c = '.' ∨ c = ',' then readFraction r5 else some (0, r4)
                     | [] => some (0, r4)) with
              | none => none
              | some (frac, r6) =>
                some ((mi : Int) * 60000000 + (ss : Int) * 1000000 + frac, r6)

/-- Parse the optional UTC offset `±HH:MM[:SS]`; the absolute offset must be
strictly below 24 hours. -/
def parseTzOffset (s : Str) : Option (Option Int × Str) :=
  match s with
  | [] => some (none, [])
  | c :: r =>
    if c = '+' ∨ c = '-' then
      match read4? (c := c) r with
      | none => none
      | some (off, rest) => some (some off, rest)
    else none
where
  read4? (c : Char) (r : Str) : Option (Int × Str) :=
    match read2 r with
    | none => none
    | some (hh, r2) =>
      match expectChar ':' r2 with
      | none => none
      | some r3 =>
        match read2 r3 with
        | none => none
        | some (mm, r4) =>
          match (match expectChar ':' r4 with
                 | none => some (0, r4)
                 | some r5 =>
                   match read2 r5 with
                   | none => none
                   | some (ss, r6) => some ((ss : Nat), r6)) with
          | none => none
          | some (ss, r7) =>
            let total : Int := (hh : Int) * 3600000000 + (mm : Int) * 60000000 + (ss : Int) * 1000000
            if total < 24 * 3600000000 then
              some (if c = '-' then -total else total, r7)
            else none

/-- The modelled `datetime.fromisoformat`. -/
def fromisoformat (s : Str) : Option PyDateTime :=
  match read4 s with
  | none => none
  | some (y, r1) =>
    match expectChar '-' r1 with
    | none => none
    | some r2 =>
      match read2 r2 with
      | none => none
      | some (mo, r3) =>
        match expectChar '-' r3 with
        | none => none
        | some r4 =>
          match read2 r4 with
          | none => none
          | some (d, r5) =>
            if 1 ≤ y ∧ y ≤ 9999 ∧ 1 ≤ mo ∧ mo ≤ 12 ∧ 1 ≤ d ∧ d ≤ daysInMonth y mo then
              match r5 with
              | [] => some ⟨y, mo, d, 0, none⟩
              | _ :: r6 =>
                match read2 r6 with
                | none => none
                | some (hh, r7) =>
                  if hh ≥ 24 then none
                  else
                    match parseMinSec r7 with
                    | none => none
                    | some (past, r8) =>
                      match parseTzOffset r8 with
                      | none => none
                      | some (off, r9) =>
                        if r9 = [] then
                          some ⟨y, mo, d, (hh : Int) * 3600000000 + past, off⟩
                        else none
            else none

/-- `_parse_iso_datetime` (both generator scripts): strip, rewrite a trailing
`Z` into `+00:00`, then `datetime.fromisoformat`; an exception is modelled as
`none`. -/
def parse_iso_datetime (value : Str) : Option PyDateTime :=
  let v := pyStrip value
  let v2 := if hasTail ['Z'] v then v.dropLast ++ "+00:00".data else v
  fromisoformat v2

/-- `_parse_iso_datetime_or_none` from `build_dashboard_from_repo_issues.py`:
`None`/empty strings and parse failures give `none`; a naive datetime is
upgraded to UTC; the result is represented as aware epoch microseconds. -/
def parse_iso_datetime_or_none (value : Option Str) : Option Int :=
  match value with
  | none => none
  | some s =>
    if s = [] then none
    else
      match parse_iso_datetime s with
      | none => none
      | some d => some (awareEpochMicro d)

/-- The fields of a GitHub issue object read by `should_include_issue`
(absent JSON keys and `null` values are `none`). -/
structure IssueRec where
  state : Option Str
  closed_at : Option Str
  updated_at : Option Str
deriving DecidableEq

/-- Python truthiness fallback `s or default` for optional strings: `None`
and the empty string select the default. -/
def pyOrStr (o : Option Str) (d : Str) : Str :=
  match o with
  | none => d
  | some s => if s = [] then d else s

/-- `should_include_issue` from `build_dashboard_from_repo_issues.py`.
`now_utc` is the run's start instant in epoch microseconds. -/
def should_include_issue (issue : IssueRec) (now_utc : Int)
    (hide_closed_older_than_days : Nat) : Bool :=
  let state := pyLower (pyOrStr issue.state [])
  if state ≠ "closed".data then true
  else
    let closed_at := parse_iso_datetime_or_none issue.closed_at
    let fallback := parse_iso_datetime_or_none issue.updated_at
    match closed_at.orElse (fun _ => fallback) with
    | none => true
    | some eff =>
      decide (now_utc - eff ≤ (hide_closed_older_than_days : Int) * microPerDay)

/-! ### Feature records and the shared dashboard assembly

The `Feature` dataclass of `build_dashboard_from_meta_issue.py`; the
all-issues variant adds a `state` string that plays no role in the
aggregation logic embedded below (the aggregation code, lines 249-318 of the
meta script and 308-376 of the all-issues script, is textually identical in
the two files and is embedded once). -/

/-- One dashboard feature record. -/
structure Feature where
  issue_number : Nat
  id : Str
  title : Str
  source_type : Str
  product_area : Str
  source_url : Str
  date_discovered : Str
deriving DecidableEq

/-- The datetime component of `_sort_key`: parse the discovery timestamp,
falling back to `datetime(1970, 1, 1, tzinfo=utc)` (epoch microsecond 0) on
failure; a naive result is replaced with UTC.  Aware datetimes compare as
instants, i.e. as epoch microseconds. -/
def sortKeyDt (f : Feature) : Int :=
  match parse_iso_datetime f.date_discovered with
  | some d => awareEpochMicro d
  | none => 0

/-- The ordering realised by sorting on `_sort_key`: lexicographic on the
parsed timestamp then the issue number. -/
def featLE (f g : Feature) : Prop :=
  sortKeyDt f < sortKeyDt g ∨ (sortKeyDt f = sortKeyDt g ∧ f.issue_number ≤ g.issue_number)

instance : DecidableRel featLE := fun f g => by
  unfold featLE
  infer_instance

instance : IsTotal Feature featLE := by
  constructor
  intro a b
  unfold featLE
  omega

instance : IsTrans Feature featLE := by
  constructor
  intro a b c
  unfold featLE
  omega

/-- Decimal rendering of a natural number. -/
def natToStr (n : Nat) : Str :=
  Nat.toDigits 10 n

/-- Zero-padded decimal rendering, for `date.isoformat()`. -/
def natPad (w n : Nat) : Str :=
  List.replicate (w - (natToStr n).length) '0' ++ natToStr n

/-- `date.isoformat()` of the wall-clock date of a parsed datetime
(`.date()` performs no timezone conversion). -/
def dateIsoformat (d : PyDateTime) : Str :=
  natPad 4 d.year ++ ['-'] ++ natPad 2 d.month ++ ['-'] ++ natPad 2 d.day

/-- `_date_yyyy_mm_dd` (both generator scripts): the date portion of the
parsed timestamp, or on parse failure the first ten characters when the
string has at least ten, else `"1970-01-01"`. -/
def date_yyyy_mm_dd (iso_dt : Str) : Str :=
  match parse_iso_datetime iso_dt with
  | some d => dateIsoformat d
  | none => if iso_dt ≠ [] ∧ 10 ≤ iso_dt.length then iso_dt.take 10 else "1970-01-01".data

/-- `counts[k] = counts.get(k, 0) + 1` on an insertion-ordered dict. -/
def bumpKey : List (Str × Nat) → Str → List (Str × Nat)
  | [], k => [(k, 1)]
  | (k', c) :: t, k => if k' = k then (k', c + 1) :: t else (k', c) :: bumpKey t k

/-- First-match lookup by string key. -/
def lookupStr : List (Str × Nat) → Str → Option Nat
  | [], _ => none
  | (k', c) :: t, k => if k' = k then some c else lookupStr t k

/-- `counts_by_date`: histogram of features by discovery day. -/
def countsByDate (fs : List Feature) : List (Str × Nat) :=
  fs.foldl (fun m f => bumpKey m (date_yyyy_mm_dd f.date_discovered)) []

/-- `counts_by_area`: histogram of features by product area. -/
def countsByArea (fs : List Feature) : List (Str × Nat) :=
  fs.foldl (fun m f => bumpKey m f.product_area) []

/-- One `time_series` row. -/
structure TsRow where
  date : Str
  count : Nat
  cumulative : Nat
deriving DecidableEq

/-- The `ts_rows` loop: walk the sorted day keys accumulating the running
cumulative count. -/
def tsRowsGo (counts : List (Str × Nat)) : Nat → List Str → List TsRow
  | _, [] => []
  | cum, d :: rest =>
    let c := (lookupStr counts d).getD 0
    ⟨d, c, cum + c⟩ :: tsRowsGo counts (cum + c) rest

/-- `sorted(counts_by_date.keys())`. -/
def sortedDays (counts : List (Str × Nat)) : List Str :=
  List.insertionSort (· ≤ ·) (counts.map Prod.fst)

/-- The running-cumulative property of a time-series tail: each row's
cumulative count equals the preceding cumulative (`prev`) plus the row's own
count. -/
def cumulFrom : Nat → List TsRow → Prop
  | _, [] => True
  | prev, r :: rest => r.cumulative = prev + r.count ∧ cumulFrom r.cumulative rest

/-- One `product_area_breakdown` row. -/
structure AreaRow where
  name : Str
  count : Nat
deriving DecidableEq

/-- The ordering realised by `area_rows.sort(key=lambda r: (-r["count"],
r["name"]))`: descending count, then ascending name. -/
def areaLE (a b : AreaRow) : Prop :=
  b.count < a.count ∨ (a.count = b.count ∧ a.name ≤ b.name)

instance : DecidableRel areaLE := fun a b => by
  unfold areaLE
  infer_instance

instance : IsTotal AreaRow areaLE := by
  constructor
  intro a b
  unfold areaLE
  rcases Nat.lt_trichotomy a.count b.count with h | h | h
  · exact Or.inr (Or.inl h)
  · rcases le_total a.name b.name with hn | hn
    · exact Or.inl (Or.inr ⟨h, hn⟩)
    · exact Or.inr (Or.inr ⟨h.symm, hn⟩)
  · exact Or.inl (Or.inl h)

instance : IsTrans AreaRow areaLE := by
  constructor
  intro a b c hab hbc
  unfold areaLE at *
  rcases hab with h1 | ⟨h1, h1n⟩ <;> rcases hbc with h2 | ⟨h2, h2n⟩
  · exact Or.inl (by omega)
  · exact Or.inl (by omega)
  · exact Or.inl (by omega)
  · exact Or.inr ⟨by omega, h1n.trans h2n⟩

/-- The pure dashboard document: every field of the Python dict built by
`build_dashboard` except `generated_at` (a wall-clock read) and the constant
empty `content_checks`/`gaps` arrays. -/
structure Dashboard where
  total_features : Nat
  ts_rows : List TsRow
  ts_total : Nat
  source_count : Nat
  area_rows : List AreaRow
  features : List Feature
deriving DecidableEq

/-- The deterministic assembly stage shared by both `build_dashboard`
functions: sort the features, total them, bucket the time series by day with
a running cumulative, and bucket the category breakdown sorted by descending
count then name.  Python's `list.sort` is stable; so is `insertionSort`. -/
def build_dashboard_assemble (fs0 : List Feature) : Dashboard :=
  let features := List.insertionSort featLE fs0
  let total := features.length
  let counts := countsByDate features
  let ts := tsRowsGo counts 0 (sortedDays counts)
  let areaCounts := countsByArea features
  let areas := List.insertionSort areaLE (areaCounts.map (fun p => AreaRow.mk p.1 p.2))
  ⟨total, ts, total, total, areas, features⟩

/-- The three validation checks guarding the `return dashboard` statement,
each raising `RuntimeError("Validation failed: ...")` on mismatch. -/
def build_dashboard_checked (fs0 : List Feature) : Except Str Dashboard :=
  let d := build_dashboard_assemble fs0
  if d.total_features ≠ d.features.length then
    Except.error "Validation failed: summary.total_features != len(features)".data
  else if d.ts_total ≠ d.features.length then
    Except.error "Validation failed: time_series.total != len(features)".data
  else if (d.area_rows.map AreaRow.count).sum ≠ d.features.length then
    Except.error "Validation failed: product area counts do not sum to total".data
  else
    Except.ok d

/-! ### The meta generator's per-issue fetch loop (`build_dashboard`,
`build_dashboard_from_meta_issue.py` lines 189-247) -/

/-- The outcome of one `fetch_issue` call: the fields the loop reads from a
successful response (absent keys are `none`; `remaining` is the parsed
`X-RateLimit-Remaining` header, `none` when the header is absent or does not
parse as an integer), or any raised exception. -/
inductive FetchResult where
  | ok (title html_url created_at : Option Str) (remaining : Option Int)
  | err
deriving DecidableEq

/-- The loop state: the sticky `rate_limited` flag, the accumulated feature
list, and — as a purely observational trace — the issue numbers for which
`fetch_issue` was actually called. -/
structure MetaState where
  rateLimited : Bool
  features : List Feature
  attempted : List Nat
deriving DecidableEq

/-- `https://github.com/{repo}/issues/{n}`. -/
def issueUrl (repo : Str) (n : Nat) : Str :=
  "https://github.com/".data ++ repo ++ "/issues/".data ++ natToStr n

/-- The synthesized placeholder record used on fetch failure or under rate
limiting: `Issue #<n>` as title and the meta issue's creation time as
discovery date. -/
def placeholderFeature (repo metaCreatedAt category : Str) (n : Nat) : Feature :=
  ⟨n, "microsoft_learn_issue_".data ++ natToStr n, "Issue #".data ++ natToStr n,
   "issue".data, category, issueUrl repo n, metaCreatedAt⟩

/-- One iteration of the `for n in ordered_issue_numbers` loop. -/
def stepIssue (repo metaCreatedAt : Str) (hasToken : Bool)
    (fetch : Nat → FetchResult) (category : Str) (st : MetaState) (n : Nat) : MetaState :=
  if st.rateLimited then
    ⟨true, st.features ++ [placeholderFeature repo metaCreatedAt category n], st.attempted⟩
  else
    match fetch n with
    | FetchResult.err =>
      ⟨false, st.features ++ [placeholderFeature repo metaCreatedAt category n],
       st.attempted ++ [n]⟩
    | FetchResult.ok t u c rem =>
      let f : Feature :=
        ⟨n, "microsoft_learn_issue_".data ++ natToStr n,
         pyOrStr t ("Issue #".data ++ natToStr n), "issue".data, category,
         pyOrStr u (issueUrl repo n), pyOrStr c metaCreatedAt⟩
      let rl :=
        match rem with
        | some r => !hasToken && decide (r ≤ 0)
        | none => false
      ⟨rl, st.features ++ [f], st.attempted ++ [n]⟩

/-- `issue_to_category.pop(meta_issue_number, None)`: drop the meta issue's
own entry (parsed mappings carry each key once). -/
def popMeta (m : List (Nat × Str)) (metaNum : Nat) : List (Nat × Str) :=
  m.filter (fun p => p.1 ≠ metaNum)

/-- `ordered_issue_numbers = sorted(issue_to_category.keys())`. -/
def orderedIssueNumbers (m : List (Nat × Str)) (metaNum : Nat) : List Nat :=
  List.insertionSort (· ≤ ·) ((popMeta m metaNum).map Prod.fst)

/-- The `for n in ordered_issue_numbers` loop as a fold, with the category
of each number supplied by `catf`. -/
def metaLoop (repo metaCreatedAt : Str) (hasToken : Bool)
    (fetch : Nat → FetchResult) (catf : Nat → Str) (st : MetaState) (ns : List Nat) : MetaState :=
  ns.foldl (fun st n => stepIssue repo metaCreatedAt hasToken fetch (catf n) st n) st

/-- The whole per-issue loop of the meta generator's `build_dashboard`,
from the parsed `issue_to_category` mapping to the raw feature list. -/
def metaBuildFeatures (repo : Str) (metaNum : Nat) (metaCreatedAt : Str)
    (hasToken : Bool) (fetch : Nat → FetchResult) (m : List (Nat × Str)) : MetaState :=
  metaLoop repo metaCreatedAt hasToken fetch
    (fun n => (lookupNum (popMeta m metaNum) n).getD [])
    ⟨false, [], []⟩ (orderedIssueNumbers m metaNum)

/-- Whether a fetch outcome trips the unauthenticated rate-limit latch:
`remaining is not None and not token and int(remaining) <= 0`. -/
def tripsRateLimit (hasToken : Bool) : FetchResult → Bool
  | FetchResult.ok _ _ _ (some r) => !hasToken && decide (r ≤ 0)
  | _ => false

/-! ### Dev server POST routing (`dev_dashboard_server.py`) -/

/-- The observable outcome of launching one generator script: the script
file is missing, the subprocess completed with an exit code, or the bounded
wait timed out. -/
inductive ScriptOutcome where
  | missing
  | completed (returncode : Int) (stdout stderr : Str)
  | timedOut (stdout stderr : Str)
deriving DecidableEq

/-- One per-script result dict produced by `_run_script`. -/
structure ScriptResult where
  ok : Bool
  returncode : Int
  script : Str
  stdout : Str
  stderr : Str
deriving DecidableEq

/-- `_run_script`: a missing script yields `ok=False, returncode=2`; a
completed run yields `ok = (returncode == 0)`; a timeout yields `ok=False,
returncode=124` with the timeout note appended to stderr. -/
def run_script (script_rel : Str) (outcome : ScriptOutcome) (timeout_s : Nat) : ScriptResult :=
  match outcome with
  | ScriptOutcome.missing =>
    ⟨false, 2, script_rel, [], "Missing script: ".data ++ script_rel⟩
  | ScriptOutcome.completed rc out err =>
    ⟨rc = 0, rc, script_rel, out, err⟩
  | ScriptOutcome.timedOut out err =>
    ⟨false, 124, script_rel, out,
     (if err = [] then [] else err ++ ['\n']) ++
       "Timed out after ".data ++ natToStr timeout_s ++ "s.".data⟩

/-- Relative path of the all-issues generator. -/
def allIssuesScript : Str := "scripts/build_dashboard_from_repo_issues.py".data

/-- Relative path of the meta generator. -/
def metaScript : Str := "scripts/build_dashboard_from_meta_issue.py".data

/-- The three refresh endpoints of `do_POST`. -/
def refreshPaths : List Str :=
  ["/__refresh_all".data, "/__refresh_meta".data, "/__refresh_both".data]

/-- The JSON response written by `do_POST`: HTTP status, top-level `ok`, the
per-script results, and the error message of the unknown-endpoint branch. -/
structure PostResponse where
  status : Nat
  ok : Bool
  results : List ScriptResult
  error : Option Str
deriving DecidableEq

/-- `do_POST` from `dev_dashboard_server.py`; `env` gives the outcome of
launching each script path. -/
def do_POST (env : Str → ScriptOutcome) (timeout_s : Nat) (path : Str) : PostResponse :=
  if path ∈ refreshPaths then
    let results :=
      if path = "/__refresh_all".data then
        [run_script allIssuesScript (env allIssuesScript) timeout_s]
      else if path = "/__refresh_meta".data then
        [run_script metaScript (env metaScript) timeout_s]
      else
        [run_script metaScript (env metaScript) timeout_s,
         run_script allIssuesScript (env allIssuesScript) timeout_s]
    let ok := results.all ScriptResult.ok
    ⟨if ok then 200 else 500, ok, results, none⟩
  else
    ⟨404, false, [], some ("Unknown endpoint: ".data ++ path)⟩

/-! ## Lemmas about the association-list mapping -/

theorem lookupNum_cons (k : Nat) (w : Str) (t : List (Nat × Str)) (n : Nat) :
    lookupNum ((k, w) :: t) n = if k = n then some w else lookupNum t n := rfl

theorem lookupNum_append_some {a : List (Nat × Str)} {n : Nat} {v : Str}
    (b : List (Nat × Str)) (h : lookupNum a n = some v) :
    lookupNum (a ++ b) n = some v := by
  induction a with
  | nil => simp [lookupNum] at h
  | cons p t ih =>
    obtain ⟨k, w⟩ := p
    rw [lookupNum_cons] at h
    rw [List.cons_append, lookupNum_cons]
    by_cases hk : k = n
    · rw [if_pos hk] at h ⊢
      exact h
    · rw [if_neg hk] at h ⊢
      exact ih h

theorem lookupNum_append_none {a : List (Nat × Str)} {n : Nat}
    (b : List (Nat × Str)) (h : lookupNum a n = none) :
    lookupNum (a ++ b) n = lookupNum b n := by
  induction a with
  | nil => simp
  | cons p t ih =>
    obtain ⟨k, w⟩ := p
    rw [lookupNum_cons] at h
    split at h
    · simp at h
    · rename_i hk
      rw [List.cons_append, lookupNum_cons, if_neg hk]
      exact ih h

theorem lookupNum_append_cases {a b : List (Nat × Str)} {n : Nat} {v : Str}
    (h : lookupNum (a ++ b) n = some v) :
    lookupNum a n = some v ∨ lookupNum b n = some v := by
  cases ha : lookupNum a n with
  | some w =>
    left
    have h2 := lookupNum_append_some b ha
    rw [h2] at h
    injection h with h3
    rw [h3]
  | none =>
    right
    rw [lookupNum_append_none b ha] at h
    exact h

theorem lookupNum_single_ne {x n : Nat} {c : Str} (h : x ≠ n) :
    lookupNum [(x, c)] n = none := by
  rw [lookupNum_cons, if_neg h]
  rfl

/-! ## Lemmas about `insertRefs` -/

theorem insertRefs_nil (M : List (Nat × Str)) (c : Str) : insertRefs M c [] = M := rfl

theorem insertRefs_cons (M : List (Nat × Str)) (c : Str) (x : Nat) (ns : List Nat) :
    insertRefs M c (x :: ns) =
      insertRefs (match lookupNum M x with
                  | none => M ++ [(x, c)]
                  | some _ => M) c ns := rfl

theorem insertRefs_preserve {n : Nat} {v c : Str} :
    ∀ (ns : List Nat) (M : List (Nat × Str)), lookupNum M n = some v →
      lookupNum (insertRefs M c ns) n = some v := by
  intro ns
  induction ns with
  | nil => intro M h; simpa [insertRefs_nil] using h
  | cons x t ih =>
    intro M h
    rw [insertRefs_cons]
    cases hx : lookupNum M x with
    | none =>
      simp only [hx]
      exact ih _ (lookupNum_append_some _ h)
    | some w =>
      simp only [hx]
      exact ih _ h

theorem insertRefs_new {n : Nat} {c : Str} :
    ∀ (ns : List Nat) (M : List (Nat × Str)), n ∈ ns → lookupNum M n = none →
      lookupNum (insertRefs M c ns) n = some c := by
  intro ns
  induction ns with
  | nil => intro M hmem; exact absurd hmem (List.not_mem_nil n)
  | cons x t ih =>
    intro M hmem hnone
    rw [insertRefs_cons]
    by_cases hx : x = n
    · subst hx
      simp only [hnone]
      apply insertRefs_preserve
      rw [lookupNum_append_none _ hnone, lookupNum_cons, if_pos rfl]
    · have hmem' : n ∈ t := by
        rcases List.mem_cons.mp hmem with h | h
        · exact absurd h.symm hx
        · exact h
      cases hxl : lookupNum M x with
      | none =>
        simp only [hxl]
        apply ih _ hmem'
        rw [lookupNum_append_none _ hnone]
        exact lookupNum_single_ne hx
      | some w =>
        simp only [hxl]
        exact ih _ hmem' hnone

theorem insertRefs_not_mem {n : Nat} {c : Str} :
    ∀ (ns : List Nat) (M : List (Nat × Str)), n ∉ ns →
      lookupNum (insertRefs M c ns) n = lookupNum M n := by
  intro ns
  induction ns with
  | nil => intro M _; rfl
  | cons x t ih =>
    intro M hmem
    have hx : x ≠ n := fun h => hmem (h ▸ List.mem_cons_self x t)
    have hmem' : n ∉ t := fun h => hmem (List.mem_cons_of_mem x h)
    rw [insertRefs_cons]
    cases hxl : lookupNum M x with
    | none =>
      simp only [hxl]
      rw [ih _ hmem']
      cases hn : lookupNum M n with
      | none => rw [lookupNum_append_none _ hn, lookupNum_single_ne hx]
      | some w => rw [lookupNum_append_some _ hn]
    | some w =>
      simp only [hxl]
      exact ih _ hmem'

theorem insertRefs_source {n : Nat} {v c : Str} :
    ∀ (ns : List Nat) (M : List (Nat × Str)),
      lookupNum (insertRefs M c ns) n = some v →
      v = c ∨ lookupNum M n = some v := by
  intro ns
  induction ns with
  | nil => intro M h; exact Or.inr h
  | cons x t ih =>
    intro M h
    rw [insertRefs_cons] at h
    cases hxl : lookupNum M x with
    | none =>
      simp only [hxl] at h
      rcases ih _ h with h1 | h1
      · exact Or.inl h1
      · rcases lookupNum_append_cases h1 with h2 | h2
        · exact Or.inr h2
        · left
          rw [lookupNum_cons] at h2
          split at h2
          · injection h2 with h3; exact h3.symm
          · simp [lookupNum] at h2
    | some w =>
      simp only [hxl] at h
      exact ih _ h

/-! ## Lemmas about the parser loop -/

theorem stepLine_heading {l : Str} (st : ParseState) (h : isHeadingLine l = true) :
    stepLine st l = ⟨some (strip_md_decorations (rstripNl l)), st.mapping⟩ := by
  unfold isHeadingLine at h
  simp [stepLine, h]

theorem stepLine_not_heading_none {l : Str} {st : ParseState}
    (h : isHeadingLine l = false) (hc : st.currentCategory = none) :
    stepLine st l = st := by
  unfold isHeadingLine at h
  simp [stepLine, h, hc]

theorem stepLine_not_heading_some {l : Str} {st : ParseState} {c : Str}
    (h : isHeadingLine l = false) (hc : st.currentCategory = some c) :
    stepLine st l =
      ⟨some c, insertRefs st.mapping c (extract_issue_numbers (rstripNl l))⟩ := by
  unfold isHeadingLine at h
  simp [stepLine, h, hc]

theorem stepLine_current_not_heading {l : Str} (st : ParseState)
    (h : isHeadingLine l = false) :
    (stepLine st l).currentCategory = st.currentCategory := by
  cases hc : st.currentCategory with
  | none =>
    rw [stepLine_not_heading_none h hc]
    exact hc
  | some c => rw [stepLine_not_heading_some h hc]

theorem stepLine_preserve {l : Str} {st : ParseState} {n : Nat} {v : Str}
    (h : lookupNum st.mapping n = some v) :
    lookupNum (stepLine st l).mapping n = some v := by
  by_cases hl : isHeadingLine l
  · rw [stepLine_heading st hl]
    exact h
  · rw [Bool.not_eq_true] at hl
    cases hc : st.currentCategory with
    | none => rw [stepLine_not_heading_none hl hc]; exact h
    | some c =>
      rw [stepLine_not_heading_some hl hc]
      exact insertRefs_preserve _ _ h

theorem foldl_stepLine_preserve {n : Nat} {v : Str} :
    ∀ (ls : List Str) (st : ParseState), lookupNum st.mapping n = some v →
      lookupNum (ls.foldl stepLine st).mapping n = some v := by
  intro ls
  induction ls with
  | nil => intro st h; exact h
  | cons l t ih =>
    intro st h
    rw [List.foldl_cons]
    exact ih _ (stepLine_preserve h)

theorem foldl_stepLine_current :
    ∀ (ls : List Str) (st : ParseState), (∀ l ∈ ls, isHeadingLine l = false) →
      (ls.foldl stepLine st).currentCategory = st.currentCategory := by
  intro ls
  induction ls with
  | nil => intro st _; rfl
  | cons l t ih =>
    intro st h
    rw [List.foldl_cons, ih _ (fun x hx => h x (List.mem_cons_of_mem l hx)),
      stepLine_current_not_heading st (h l (List.mem_cons_self l t))]

theorem foldl_stepLine_skip :
    ∀ (ls : List Str) (st : ParseState), st.currentCategory = none →
      (∀ l ∈ ls, isHeadingLine l = false) → ls.foldl stepLine st = st := by
  intro ls
  induction ls with
  | nil => intro st _ _; rfl
  | cons l t ih =>
    intro st hc h
    rw [List.foldl_cons, stepLine_not_heading_none (h l (List.mem_cons_self l t)) hc]
    exact ih _ hc (fun x hx => h x (List.mem_cons_of_mem l hx))

theorem stepLine_mapping_none {l : Str} {st : ParseState} {n : Nat}
    (h : lookupNum st.mapping n = none)
    (himp : n ∈ extract_issue_numbers (rstripNl l) → isHeadingLine l = true) :
    lookupNum (stepLine st l).mapping n = none := by
  by_cases hl : isHeadingLine l
  · rw [stepLine_heading st hl]
    exact h
  · rw [Bool.not_eq_true] at hl
    cases hc : st.currentCategory with
    | none => rw [stepLine_not_heading_none hl hc]; exact h
    | some c =>
      rw [stepLine_not_heading_some hl hc]
      have hnm : n ∉ extract_issue_numbers (rstripNl l) := fun hm => by
        rw [himp hm] at hl
        exact Bool.true_eq_false.mp hl
      rw [insertRefs_not_mem _ _ hnm]
      exact h

theorem foldl_stepLine_mapping_none {n : Nat} :
    ∀ (ls : List Str) (st : ParseState), lookupNum st.mapping n = none →
      (∀ l ∈ ls, n ∈ extract_issue_numbers (rstripNl l) → isHeadingLine l = true) →
      lookupNum (ls.foldl stepLine st).mapping n = none := by
  intro ls
  induction ls with
  | nil => intro st h _; exact h
  | cons l t ih =>
    intro st h hh
    rw [List.foldl_cons]
    exact ih _ (stepLine_mapping_none h (hh l (List.mem_cons_self l t)))
      (fun x hx => hh x (List.mem_cons_of_mem l hx))

set_option maxHeartbeats 1000000 in
theorem stepLine_recognized {l : Str} {st : ParseState}
    (hcur : ∀ cc, st.currentCategory = some cc → isRecognizedCandidate cc = true)
    (hmap : ∀ k v, lookupNum st.mapping k = some v → isRecognizedCandidate v = true) :
    (∀ cc, (stepLine st l).currentCategory = some cc → isRecognizedCandidate cc = true) ∧
    (∀ k v, lookupNum (stepLine st l).mapping k = some v → isRecognizedCandidate v = true) := by
  by_cases hl : isHeadingLine l
  · rw [stepLine_heading st hl]
    refine ⟨?_, hmap⟩
    intro cc hcc
    rw [← Option.some.inj hcc]
    exact hl
  · rw [Bool.not_eq_true] at hl
    cases hc : st.currentCategory with
    | none =>
      rw [stepLine_not_heading_none hl hc]
      exact ⟨hcur, hmap⟩
    | some c =>
      rw [stepLine_not_heading_some hl hc]
      refine ⟨?_, ?_⟩
      · intro cc hcc
        exact Option.some.inj hcc ▸ hcur c hc
      · intro k v hv
        rcases insertRefs_source _ _ hv with h1 | h1
        · exact h1 ▸ hcur c hc
        · exact hmap k v h1

theorem foldl_stepLine_recognized :
    ∀ (ls : List Str) (st : ParseState),
      (∀ cc, st.currentCategory = some cc → isRecognizedCandidate cc = true) →
      (∀ k v, lookupNum st.mapping k = some v → isRecognizedCandidate v = true) →
      ∀ k v, lookupNum (ls.foldl stepLine st).mapping k = some v →
        isRecognizedCandidate v = true := by
  intro ls
  induction ls with
  | nil => intro st _ hmap; exact hmap
  | cons l t ih =>
    intro st hcur hmap
    rw [List.foldl_cons]
    obtain ⟨h1, h2⟩ := stepLine_recognized (l := l) hcur hmap
    exact ih _ h1 h2

/-! ## The claims about the section parser -/

/-- C1: `parse_meta_issue_body` maps an issue number to the category current
at the number's first reference: lines before any recognized heading leave
the parse unchanged, a mapped number's category survives any further lines,
and a line that is not recognized as a heading never changes the current
category. -/
theorem C1_parse_meta_first_seen_category :
    (∀ (pre rest : List Str), (∀ l ∈ pre, isHeadingLine l = false) →
      parseLines (pre ++ rest) = parseLines rest) ∧
    (∀ (lines more : List Str) (n : Nat) (c : Str),
      lookupNum (parseLines lines).mapping n = some c →
      lookupNum (parseLines (lines ++ more)).mapping n = some c) ∧
    (∀ (st : ParseState) (l : Str), isHeadingLine l = false →
      (stepLine st l).currentCategory = st.currentCategory) := by
  refine ⟨?_, ?_, ?_⟩
  · intro pre rest hpre
    unfold parseLines
    rw [List.foldl_append, foldl_stepLine_skip pre ⟨none, []⟩ rfl hpre]
  · intro lines more n c h
    unfold parseLines at h ⊢
    rw [List.foldl_append]
    exact foldl_stepLine_preserve _ _ h
  · intro st l h
    exact stepLine_current_not_heading st h

/-- Witness for C1 at concrete inputs: a pre-heading reference line is
inert, a mapped number keeps its first category across later headings, and
an unrecognized heading-like line keeps the current category. -/
theorem C1_witness :
    parseLines (["before /issues/3".data] ++
        ["### Grammar/Spelling".data, "/issues/4".data]) =
      parseLines ["### Grammar/Spelling".data, "/issues/4".data] ∧
    lookupNum (parseLines (["### Grammar/Spelling".data, "/issues/4".data] ++
        ["### Other (Support/Ambiguous/Process)".data, "/issues/4".data])).mapping 4 =
      some "Grammar/Spelling".data ∧
    (stepLine ⟨some "Grammar/Spelling".data, []⟩ "#### Unknown Heading".data).currentCategory =
      some "Grammar/Spelling".data := by
  refine ⟨?_, ?_, ?_⟩
  · exact C1_parse_meta_first_seen_category.1 _ _ (by decide)
  · exact C1_parse_meta_first_seen_category.2.1 _ _ 4 _ (by decide)
  · rw [C1_parse_meta_first_seen_category.2.2 _ _ (by decide)]

/-- C10: a recognized heading line only updates the current category — its
own issue references are skipped — so a number referenced exclusively on
recognized heading lines never enters the mapping. -/
theorem C10_heading_line_refs_never_recorded :
    (∀ (st : ParseState) (l : Str), isHeadingLine l = true →
      stepLine st l = ⟨some (strip_md_decorations (rstripNl l)), st.mapping⟩) ∧
    (∀ (lines : List Str) (n : Nat),
      (∀ l ∈ lines, n ∈ extract_issue_numbers (rstripNl l) → isHeadingLine l = true) →
      lookupNum (parseLines lines).mapping n = none) := by
  refine ⟨?_, ?_⟩
  · intro st l h
    exact stepLine_heading st h
  · intro lines n h
    exact foldl_stepLine_mapping_none lines ⟨none, []⟩ rfl h

/-- Witness for C10: a heading line carrying a reference updates only the
category, and a body whose only reference sits on a recognized heading line
produces an empty mapping for it. -/
theorem C10_witness :
    stepLine ⟨none, []⟩ "### Grammar/Spelling /issues/9".data =
      ⟨some (strip_md_decorations (rstripNl "### Grammar/Spelling /issues/9".data)), []⟩ ∧
    lookupNum (parseLines ["### Grammar/Spelling /issues/9".data, "no ref here".data]).mapping 9 =
      none := by
  refine ⟨?_, ?_⟩
  · exact C10_heading_line_refs_never_recorded.1 ⟨none, []⟩ _ (by decide)
  · exact C10_heading_line_refs_never_recorded.2 _ 9 (by decide)

/-- C8: an issue number first referenced strictly between a recognized
category heading and the next recognized heading is mapped to that heading's
decoration-stripped text, exactly as displayed — before the case-folding
`_normalize_key` normalization used for recognition.  (Assignment happens at
the first reference only; see C1.) -/
theorem C8_refs_between_headings_get_heading_text
    (body : Str) (pre mid post : List Str) (h l : Str) (n : Nat)
    (hsplit : pySplitlines body = pre ++ h :: (mid ++ l :: post))
    (hh : isHeadingLine h = true)
    (hmid : ∀ m ∈ mid, isHeadingLine m = false)
    (hl : isHeadingLine l = false)
    (hn : n ∈ extract_issue_numbers (rstripNl l))
    (hnew : lookupNum (parseLines (pre ++ h :: mid)).mapping n = none) :
    lookupNum (parse_meta_issue_body body) n =
      some (strip_md_decorations (rstripNl h)) := by
  unfold parse_meta_issue_body
  rw [hsplit]
  have hassoc : pre ++ h :: (mid ++ l :: post) = (pre ++ h :: mid) ++ (l :: post) := by
    simp
  rw [hassoc]
  unfold parseLines
  rw [List.foldl_append, List.foldl_cons]
  set st1 := (pre ++ h :: mid).foldl stepLine (⟨none, []⟩ : ParseState) with hst1
  have hcur : st1.currentCategory = some (strip_md_decorations (rstripNl h)) := by
    rw [hst1, List.foldl_append, List.foldl_cons, foldl_stepLine_current mid _ hmid,
      stepLine_heading _ hh]
  rw [stepLine_not_heading_some hl hcur]
  apply foldl_stepLine_preserve
  exact insertRefs_new _ _ hn hnew

/-- Witness for C8 at a concrete body: `/issues/42` between the
`**Grammar/Spelling:**` heading and the next heading is mapped to the
stripped heading text `Grammar/Spelling`. -/
theorem C8_witness :
    lookupNum
      (parse_meta_issue_body
        "intro\n**Grammar/Spelling:**\nnote\nsee /issues/42\nrest\n### Suggested Content Updates\n/issues/42".data)
      42 = some (strip_md_decorations (rstripNl "**Grammar/Spelling:**".data)) := by
  exact C8_refs_between_headings_get_heading_text
    "intro\n**Grammar/Spelling:**\nnote\nsee /issues/42\nrest\n### Suggested Content Updates\n/issues/42".data
    ["intro".data] ["note".data]
    ["rest".data, "### Suggested Content Updates".data, "/issues/42".data]
    "**Grammar/Spelling:**".data "see /issues/42".data 42
    (by decide) (by decide) (by decide) (by decide) (by decide) (by decide)

/-- C4 (as stated) is refuted by a concrete run of the meta generator: the
body heading `### GRAMMAR/SPELLING` is recognized (keys are compared after
case-folding) but the stored label is the as-displayed text
`GRAMMAR/SPELLING`, which is none of the known category labels. -/
theorem C4_counterexample :
    ((metaBuildFeatures "githubpartners/microsoft-learn".data 223
        "2020-01-01T00:00:00Z".data false (fun _ => FetchResult.err)
        (parse_meta_issue_body "### GRAMMAR/SPELLING\n/issues/5".data)).features.map
      Feature.product_area) = ["GRAMMAR/SPELLING".data] ∧
    "GRAMMAR/SPELLING".data ∉ allCategoryLabels := by
  constructor
  · decide
  · decide

theorem categorize_module_bucket {title : Str} (labels : List Str) (body : Str)
    (hm : matchesModuleTitleRe (normalize_ws title) = true) :
    categorize_issue_best_guess title labels body = MODULE_UPDATE_REQUEST_CATEGORY := by
  simp [categorize_issue_best_guess, category_from_title, hm]

theorem categorize_keyword_cascade {title : Str} (labels : List Str) (body : Str)
    (hm : matchesModuleTitleRe (normalize_ws title) = false) :
    categorize_issue_best_guess title labels body =
      (let blob := classifierBlob title labels body
       if text_contains_any blob grammarKeywords then "Grammar/Spelling".data
       else if text_contains_any blob placeholderKeywords then
         "Placeholders (Template-Incomplete)".data
       else if text_contains_any blob deprecatedKeywords then
         "Deprecated/Potentially Outdated Content".data
       else if text_contains_any blob suggestionKeywords then
         "Suggested Content Updates".data
       else "Other (Support/Ambiguous/Process)".data) := by
  simp only [categorize_issue_best_guess, category_from_title, hm,
    Bool.false_eq_true, if_false]

theorem categorize_total (title : Str) (labels : List Str) (body : Str) :
    categorize_issue_best_guess title labels body ∈ allCategoryLabels := by
  by_cases hm : matchesModuleTitleRe (normalize_ws title) = true
  · rw [categorize_module_bucket labels body hm]
    decide
  · rw [Bool.not_eq_true] at hm
    rw [categorize_keyword_cascade labels body hm]
    simp only []
    split
    · decide
    · split
      · decide
      · split
        · decide
        · split
          · decide
          · decide

/-- C4 (amended): the all-issues classifier always returns one of the six
known labels; the meta parser can store any recognized heading candidate —
its normalized key equals a known category key or extends one by a space,
but the exact text may differ from the fixed labels. -/
theorem C4_amended_labels_recognized :
    (∀ (title : Str) (labels : List Str) (body : Str),
      categorize_issue_best_guess title labels body ∈ allCategoryLabels) ∧
    (∀ (lines : List Str) (n : Nat) (c : Str),
      lookupNum (parseLines lines).mapping n = some c →
      isRecognizedCandidate c = true) := by
  refine ⟨categorize_total, ?_⟩
  intro lines n c h
  exact foldl_stepLine_recognized lines ⟨none, []⟩ (by intro cc hcc; cases hcc)
    (by intro k v hv; cases hv) n c h

/-- Witness for C4 (amended): a concrete classification lands in the label
set, and the concrete parsed label from the counterexample body is a
recognized candidate. -/
theorem C4_amended_witness :
    categorize_issue_best_guess "t".data [] "typo".data ∈ allCategoryLabels ∧
    isRecognizedCandidate "GRAMMAR/SPELLING".data = true := by
  refine ⟨C4_amended_labels_recognized.1 _ [] _, ?_⟩
  exact C4_amended_labels_recognized.2 ["### GRAMMAR/SPELLING".data, "/issues/5".data] 5
    "GRAMMAR/SPELLING".data (by decide)

/-! ## The classifier claim -/

/-- C2: `categorize_issue_best_guess` is total over the six fixed labels and
respects the priority order: the case-insensitive module-update title prefix
wins outright; otherwise the first keyword family — grammar, placeholder,
deprecated, suggestion — with a case-insensitive substring hit in the
concatenated normalized title, joined labels and raw body decides, and no
hit at all yields the catch-all bucket. -/
theorem C2_categorize_total_and_priority (title : Str) (labels : List Str) (body : Str) :
    categorize_issue_best_guess title labels body ∈ allCategoryLabels ∧
    (matchesModuleTitleRe (normalize_ws title) = true →
      categorize_issue_best_guess title labels body = MODULE_UPDATE_REQUEST_CATEGORY) ∧
    (matchesModuleTitleRe (normalize_ws title) = false →
      (text_contains_any (classifierBlob title labels body) grammarKeywords = true →
        categorize_issue_best_guess title labels body = "Grammar/Spelling".data) ∧
      (text_contains_any (classifierBlob title labels body) grammarKeywords = false →
       text_contains_any (classifierBlob title labels body) placeholderKeywords = true →
        categorize_issue_best_guess title labels body =
          "Placeholders (Template-Incomplete)".data) ∧
      (text_contains_any (classifierBlob title labels body) grammarKeywords = false →
       text_contains_any (classifierBlob title labels body) placeholderKeywords = false →
       text_contains_any (classifierBlob title labels body) deprecatedKeywords = true →
        categorize_issue_best_guess title labels body =
          "Deprecated/Potentially Outdated Content".data) ∧
      (text_contains_any (classifierBlob title labels body) grammarKeywords = false →
       text_contains_any (classifierBlob title labels body) placeholderKeywords = false →
       text_contains_any (classifierBlob title labels body) deprecatedKeywords = false →
       text_contains_any (classifierBlob title labels body) suggestionKeywords = true →
        categorize_issue_best_guess title labels body = "Suggested Content Updates".data) ∧
      (text_contains_any (classifierBlob title labels body) grammarKeywords = false →
       text_contains_any (classifierBlob title labels body) placeholderKeywords = false →
       text_contains_any (classifierBlob title labels body) deprecatedKeywords = false →
       text_contains_any (classifierBlob title labels body) suggestionKeywords = false →
        categorize_issue_best_guess title labels body =
          "Other (Support/Ambiguous/Process)".data)) := by
  refine ⟨categorize_total title labels body, ?_, ?_⟩
  · intro hm
    exact categorize_module_bucket labels body hm
  · intro hm
    refine ⟨?_, ?_, ?_, ?_, ?_⟩
    · intro h1
      rw [categorize_keyword_cascade labels body hm]
      simp [h1]
    · intro h1 h2
      rw [categorize_keyword_cascade labels body hm]
      simp [h1, h2]
    · intro h1 h2 h3
      rw [categorize_keyword_cascade labels body hm]
      simp [h1, h2, h3]
    · intro h1 h2 h3 h4
      rw [categorize_keyword_cascade labels body hm]
      simp [h1, h2, h3, h4]
    · intro h1 h2 h3 h4
      rw [categorize_keyword_cascade labels body hm]
      simp [h1, h2, h3, h4]

/-- Witness for C2: the module title prefix wins over keywords, a body with
both "typo" and "deprecated" classifies as Grammar/Spelling, and a
keyword-free input lands in the catch-all bucket. -/
theorem C2_witness :
    categorize_issue_best_guess "MS Learn Module Update Request: Intro".data []
        "typo deprecated".data = MODULE_UPDATE_REQUEST_CATEGORY ∧
    categorize_issue_best_guess "x".data [] "has a typo and is deprecated".data =
      "Grammar/Spelling".data ∧
    categorize_issue_best_guess "x".data [] "nothing relevant here".data =
      "Other (Support/Ambiguous/Process)".data := by
  refine ⟨?_, ?_, ?_⟩
  · exact (C2_categorize_total_and_priority _ [] _).2.1 (by decide)
  · exact ((C2_categorize_total_and_priority _ [] _).2.2 (by decide)).1 (by decide)
  · exact ((C2_categorize_total_and_priority _ [] _).2.2 (by decide)).2.2.2.2
      (by decide) (by decide) (by decide) (by decide)

/-! ## The closed-issue recency filter claim -/

/-- C5: `should_include_issue` keeps every issue whose (lowercased) state is
not `"closed"`; for a closed issue the effective closed timestamp is
`closed_at` with `updated_at` as fallback, an unparseable pair keeps the
issue, an issue closed exactly 30 days before the run start is kept, and one
closed more than 30 days before is dropped. -/
theorem C5_should_include_issue_window (issue : IssueRec) (now_utc : Int) :
    (pyLower (pyOrStr issue.state []) ≠ "closed".data →
      should_include_issue issue now_utc 30 = true) ∧
    (parse_iso_datetime_or_none issue.closed_at = none →
     parse_iso_datetime_or_none issue.updated_at = none →
      should_include_issue issue now_utc 30 = true) ∧
    (∀ t : Int, parse_iso_datetime_or_none issue.closed_at = some t →
      now_utc - t = 30 * microPerDay →
      should_include_issue issue now_utc 30 = true) ∧
    (∀ t : Int, parse_iso_datetime_or_none issue.closed_at = none →
      parse_iso_datetime_or_none issue.updated_at = some t →
      now_utc - t = 30 * microPerDay →
      should_include_issue issue now_utc 30 = true) ∧
    (∀ t : Int, pyLower (pyOrStr issue.state []) = "closed".data →
      parse_iso_datetime_or_none issue.closed_at = some t →
      now_utc - t > 30 * microPerDay →
      should_include_issue issue now_utc 30 = false) ∧
    (∀ t : Int, pyLower (pyOrStr issue.state []) = "closed".data →
      parse_iso_datetime_or_none issue.closed_at = none →
      parse_iso_datetime_or_none issue.updated_at = some t →
      now_utc - t > 30 * microPerDay →
      should_include_issue issue now_utc 30 = false) := by
  by_cases hstate : pyLower (pyOrStr issue.state []) = "closed".data
  · refine ⟨fun h => absurd hstate h, ?_, ?_, ?_, ?_, ?_⟩
    · intro h1 h2
      simp [should_include_issue, hstate, h1, h2, Option.orElse]
    · intro t h1 h2
      simp only [should_include_issue, hstate, ne_eq, not_true_eq_false, if_false, h1,
        Option.orElse, decide_eq_true_eq]
      omega
    · intro t h1 h2 h3
      simp only [should_include_issue, hstate, ne_eq, not_true_eq_false, if_false, h1, h2,
        Option.orElse, decide_eq_true_eq]
      omega
    · intro t _ h1 h2
      simp only [should_include_issue, hstate, ne_eq, not_true_eq_false, if_false, h1,
        Option.orElse, decide_eq_false_iff_not, not_le]
      omega
    · intro t _ h1 h2 h3
      simp only [should_include_issue, hstate, ne_eq, not_true_eq_false, if_false, h1, h2,
        Option.orElse, decide_eq_false_iff_not, not_le]
      omega
  · have hinc : should_include_issue issue now_utc 30 = true := by
      simp [should_include_issue, hstate]
    exact ⟨fun _ => hinc, fun _ _ => hinc, fun _ _ _ => hinc, fun _ _ _ _ => hinc,
      fun _ h _ _ => absurd h hstate, fun _ h _ _ _ => absurd h hstate⟩

/-- Witness for C5 at concrete issues: an open issue of any age is kept, an
unparseable closed issue is kept, a closure exactly 30 days old (via
`closed_at`, and via the `updated_at` fallback) is kept, and a closure 30
days and one microsecond old is dropped. -/
theorem C5_witness :
    should_include_issue ⟨some "open".data, some "1999-01-01T00:00:00Z".data, none⟩
        1704067200000000 30 = true ∧
    should_include_issue ⟨some "closed".data, some "yesterday".data, none⟩
        1704067200000000 30 = true ∧
    should_include_issue ⟨some "closed".data, some "2024-01-01T00:00:00Z".data, none⟩
        (1704067200000000 + 30 * microPerDay) 30 = true ∧
    should_include_issue ⟨some "CLOSED".data, none, some "2024-01-01T00:00:00Z".data⟩
        (1704067200000000 + 30 * microPerDay) 30 = true ∧
    should_include_issue ⟨some "closed".data, some "2024-01-01T00:00:00Z".data, none⟩
        (1704067200000000 + 30 * microPerDay + 1) 30 = false := by
  refine ⟨?_, ?_, ?_, ?_, ?_⟩
  · exact (C5_should_include_issue_window _ _).1 (by decide)
  · exact (C5_should_include_issue_window _ _).2.1 (by decide) (by decide)
  · exact (C5_should_include_issue_window _ _).2.2.1 1704067200000000 (by decide) (by decide)
  · exact (C5_should_include_issue_window _ _).2.2.2.1 1704067200000000 (by decide)
      (by decide) (by decide)
  · exact (C5_should_include_issue_window _ _).2.2.2.2.1 1704067200000000 (by decide)
      (by decide) (by decide)

/-! ## Lemmas about the aggregation -/

theorem bumpKey_snd_sum : ∀ (m : List (Str × Nat)) (k : Str),
    ((bumpKey m k).map Prod.snd).sum = (m.map Prod.snd).sum + 1 := by
  intro m
  induction m with
  | nil => intro k; simp [bumpKey]
  | cons p t ih =>
    intro k
    obtain ⟨k', c⟩ := p
    by_cases h : k' = k
    · simp only [bumpKey, if_pos h, List.map_cons, List.sum_cons]
      omega
    · simp only [bumpKey, if_neg h, List.map_cons, List.sum_cons, ih]
      omega

theorem foldl_bump_sum (keyf : Feature → Str) :
    ∀ (fs : List Feature) (m : List (Str × Nat)),
      ((fs.foldl (fun m f => bumpKey m (keyf f)) m).map Prod.snd).sum =
        (m.map Prod.snd).sum + fs.length := by
  intro fs
  induction fs with
  | nil => intro m; simp
  | cons f t ih =>
    intro m
    rw [List.foldl_cons, ih, bumpKey_snd_sum]
    simp only [List.length_cons]
    omega

theorem bumpKey_fst : ∀ (m : List (Str × Nat)) (k : Str),
    (bumpKey m k).map Prod.fst =
      if k ∈ m.map Prod.fst then m.map Prod.fst else m.map Prod.fst ++ [k] := by
  intro m
  induction m with
  | nil => intro k; simp [bumpKey]
  | cons p t ih =>
    intro k
    obtain ⟨k', c⟩ := p
    by_cases h : k' = k
    · simp [bumpKey, h]
    · simp only [bumpKey, if_neg h, List.map_cons, ih]
      by_cases hm : k ∈ t.map Prod.fst
      · rw [if_pos hm, if_pos (List.mem_cons_of_mem _ hm)]
      · have hmm : k ∉ k' :: t.map Prod.fst := by
          intro hk
          rcases List.mem_cons.mp hk with h1 | h1
          · exact h h1.symm
          · exact hm h1
        rw [if_neg hm, if_neg hmm, List.cons_append]

theorem foldl_bump_nodup (keyf : Feature → Str) :
    ∀ (fs : List Feature) (m : List (Str × Nat)), (m.map Prod.fst).Nodup →
      ((fs.foldl (fun m f => bumpKey m (keyf f)) m).map Prod.fst).Nodup := by
  intro fs
  induction fs with
  | nil => intro m h; exact h
  | cons f t ih =>
    intro m h
    rw [List.foldl_cons]
    apply ih
    rw [bumpKey_fst]
    by_cases hm : keyf f ∈ m.map Prod.fst
    · rw [if_pos hm]; exact h
    · rw [if_neg hm]
      simp only [List.nodup_append, List.nodup_cons, List.not_mem_nil, not_false_iff,
        List.nodup_nil, and_true, true_and]
      refine ⟨h, ?_⟩
      intro a ha hb
      simp only [List.mem_cons, List.not_mem_nil, or_false] at hb
      exact hm (hb ▸ ha)

theorem tsRowsGo_map_date (counts : List (Str × Nat)) :
    ∀ (days : List Str) (cum : Nat), (tsRowsGo counts cum days).map TsRow.date = days := by
  intro days
  induction days with
  | nil => intro cum; rfl
  | cons d t ih =>
    intro cum
    simp [tsRowsGo, ih]

theorem tsRowsGo_cumul (counts : List (Str × Nat)) :
    ∀ (days : List Str) (cum : Nat), cumulFrom cum (tsRowsGo counts cum days) := by
  intro days
  induction days with
  | nil => intro cum; trivial
  | cons d t ih =>
    intro cum
    exact ⟨rfl, ih _⟩

theorem sortedDays_pairwise_lt (counts : List (Str × Nat))
    (hnd : (counts.map Prod.fst).Nodup) :
    List.Pairwise (fun a b : Str => a < b) (sortedDays counts) := by
  have hs : List.Sorted (· ≤ ·) (sortedDays counts) :=
    List.sorted_insertionSort _ _
  have hnd2 : (sortedDays counts).Nodup :=
    ((List.perm_insertionSort _ _).nodup_iff).mpr hnd
  exact hs.lt_of_le hnd2

/-! ## The dashboard consistency and ordering claims -/

/-- C3: for every feature list, the assembled dashboard satisfies
`summary.total_features = len(features) = time_series.total = sum of the
product-area counts`, so the three `Validation failed` branches are
unreachable and `build_dashboard` returns the document. -/
theorem C3_dashboard_counts_consistent (fs : List Feature) :
    (build_dashboard_assemble fs).total_features = fs.length ∧
    (build_dashboard_assemble fs).features.length = fs.length ∧
    (build_dashboard_assemble fs).ts_total = fs.length ∧
    ((build_dashboard_assemble fs).area_rows.map AreaRow.count).sum = fs.length ∧
    build_dashboard_checked fs = Except.ok (build_dashboard_assemble fs) := by
  have hlen : (List.insertionSort featLE fs).length = fs.length :=
    (List.perm_insertionSort featLE fs).length_eq
  have htot : (build_dashboard_assemble fs).total_features = fs.length := by
    simp [build_dashboard_assemble, hlen]
  have hfeat : (build_dashboard_assemble fs).features.length = fs.length := by
    simp [build_dashboard_assemble, hlen]
  have hts : (build_dashboard_assemble fs).ts_total = fs.length := by
    simp [build_dashboard_assemble, hlen]
  have harea : ((build_dashboard_assemble fs).area_rows.map AreaRow.count).sum = fs.length := by
    have hperm :
        ((build_dashboard_assemble fs).area_rows.map AreaRow.count).Perm
          (((countsByArea (List.insertionSort featLE fs)).map
            (fun p => AreaRow.mk p.1 p.2)).map AreaRow.count) := by
      simp only [build_dashboard_assemble]
      exact (List.perm_insertionSort areaLE _).map AreaRow.count
    rw [hperm.sum_eq, List.map_map]
    have : (AreaRow.count ∘ fun p : Str × Nat => AreaRow.mk p.1 p.2) = Prod.snd := rfl
    rw [this]
    unfold countsByArea
    rw [foldl_bump_sum]
    simp [hlen]
  refine ⟨htot, hfeat, hts, harea, ?_⟩
  unfold build_dashboard_checked
  rw [if_neg (by omega), if_neg (by omega), if_neg (by omega)]

/-- C6: the assembled dashboard's feature array is sorted ascending by
(parsed discovery timestamp, issue number) — an unparseable timestamp
sorting as epoch zero — and its time series is strictly ascending by
calendar day with each row's cumulative equal to the previous cumulative
plus the row's count. -/
theorem C6_dashboard_ordering (fs : List Feature) :
    List.Sorted featLE (build_dashboard_assemble fs).features ∧
    List.Pairwise (fun a b : TsRow => a.date < b.date)
      (build_dashboard_assemble fs).ts_rows ∧
    cumulFrom 0 (build_dashboard_assemble fs).ts_rows ∧
    (∀ f : Feature, parse_iso_datetime f.date_discovered = none → sortKeyDt f = 0) := by
  refine ⟨?_, ?_, ?_, ?_⟩
  · simp only [build_dashboard_assemble]
    exact List.sorted_insertionSort featLE fs
  · have hnd : ((countsByDate (List.insertionSort featLE fs)).map Prod.fst).Nodup := by
      unfold countsByDate
      exact foldl_bump_nodup _ _ [] (by simp)
    have hp := sortedDays_pairwise_lt _ hnd
    have hmap := tsRowsGo_map_date (countsByDate (List.insertionSort featLE fs))
      (sortedDays (countsByDate (List.insertionSort featLE fs))) 0
    rw [← hmap] at hp
    simp only [build_dashboard_assemble]
    exact List.pairwise_map.mp hp
  · simp only [build_dashboard_assemble]
    exact tsRowsGo_cumul _ _ 0
  · intro f h
    simp [sortKeyDt, h]

/-- Witness for C6: the ordering facts at a concrete feature list, and the
epoch-zero sort key of a concrete unparseable timestamp. -/
theorem C6_witness :
    List.Sorted featLE (build_dashboard_assemble
      [⟨2, [], [], [], "A".data, [], "2024-01-02T00:00:00Z".data⟩,
       ⟨1, [], [], [], "B".data, [], "bad-timestamp".data⟩]).features ∧
    sortKeyDt ⟨1, [], [], [], "B".data, [], "bad-timestamp".data⟩ = 0 := by
  refine ⟨(C6_dashboard_ordering _).1, ?_⟩
  exact (C6_dashboard_ordering []).2.2.2
    ⟨1, [], [], [], "B".data, [], "bad-timestamp".data⟩ (by decide)

/-! ## Lemmas about the meta generator's fetch loop -/

theorem stepIssue_features_map (repo mc : Str) (tok : Bool) (fetch : Nat → FetchResult)
    (cat : Str) (st : MetaState) (n : Nat) :
    (stepIssue repo mc tok fetch cat st n).features.map Feature.issue_number =
      st.features.map Feature.issue_number ++ [n] := by
  unfold stepIssue
  split
  · simp [placeholderFeature]
  · cases fetch n <;> simp [placeholderFeature]

theorem metaLoop_features_map (repo mc : Str) (tok : Bool) (fetch : Nat → FetchResult)
    (catf : Nat → Str) :
    ∀ (ns : List Nat) (st : MetaState),
      (metaLoop repo mc tok fetch catf st ns).features.map Feature.issue_number =
        st.features.map Feature.issue_number ++ ns := by
  intro ns
  induction ns with
  | nil => intro st; simp [metaLoop]
  | cons n t ih =>
    intro st
    unfold metaLoop at ih ⊢
    rw [List.foldl_cons, ih, stepIssue_features_map]
    simp

theorem metaLoop_rate_limited_placeholders (repo mc : Str) (tok : Bool)
    (fetch : Nat → FetchResult) (catf : Nat → Str) :
    ∀ (ns : List Nat) (st : MetaState), st.rateLimited = true →
      metaLoop repo mc tok fetch catf st ns =
        ⟨true, st.features ++ ns.map (fun n => placeholderFeature repo mc (catf n) n),
         st.attempted⟩ := by
  intro ns
  induction ns with
  | nil =>
    intro st h
    obtain ⟨rl, f, a⟩ := st
    simp only at h
    subst h
    simp [metaLoop]
  | cons n t ih =>
    intro st h
    unfold metaLoop at ih ⊢
    rw [List.foldl_cons]
    have hstep : stepIssue repo mc tok fetch (catf n) st n =
        ⟨true, st.features ++ [placeholderFeature repo mc (catf n) n], st.attempted⟩ := by
      unfold stepIssue
      rw [if_pos h]
    rw [hstep, ih _ rfl]
    simp

theorem stepIssue_attempted (repo mc : Str) (tok : Bool) (fetch : Nat → FetchResult)
    (cat : Str) (st : MetaState) (n : Nat) (x : Nat)
    (h : x ∈ (stepIssue repo mc tok fetch cat st n).attempted) :
    x ∈ st.attempted ∨ x = n := by
  unfold stepIssue at h
  split at h
  · exact Or.inl h
  · cases hf : fetch n with
    | err =>
      rw [hf] at h
      simp only at h
      rcases List.mem_append.mp h with h1 | h1
      · exact Or.inl h1
      · simp only [List.mem_cons, List.not_mem_nil, or_false] at h1
        exact Or.inr h1
    | ok t u c rem =>
      rw [hf] at h
      simp only at h
      rcases List.mem_append.mp h with h1 | h1
      · exact Or.inl h1
      · simp only [List.mem_cons, List.not_mem_nil, or_false] at h1
        exact Or.inr h1

theorem metaLoop_attempted (repo mc : Str) (tok : Bool) (fetch : Nat → FetchResult)
    (catf : Nat → Str) :
    ∀ (ns : List Nat) (st : MetaState) (x : Nat),
      x ∈ (metaLoop repo mc tok fetch catf st ns).attempted →
      x ∈ st.attempted ∨ x ∈ ns := by
  intro ns
  induction ns with
  | nil => intro st x h; exact Or.inl h
  | cons n t ih =>
    intro st x h
    unfold metaLoop at ih h
    rw [List.foldl_cons] at h
    rcases ih _ x h with h1 | h1
    · rcases stepIssue_attempted repo mc tok fetch (catf n) st n x h1 with h2 | h2
      · exact Or.inl h2
      · exact Or.inr (h2 ▸ List.mem_cons_self n t)
    · exact Or.inr (List.mem_cons_of_mem n h1)

theorem stepIssue_trips (repo mc : Str) (tok : Bool) (fetch : Nat → FetchResult)
    (cat : Str) (st : MetaState) (n : Nat)
    (h : tripsRateLimit tok (fetch n) = true) :
    (stepIssue repo mc tok fetch cat st n).rateLimited = true := by
  unfold stepIssue
  split
  · rfl
  · unfold tripsRateLimit at h
    cases hf : fetch n with
    | err => rw [hf] at h; exact absurd h (by simp)
    | ok t u c rem =>
      rw [hf] at h
      cases rem with
      | none => exact absurd h (by simp)
      | some r => simpa using h

theorem stepIssue_err_inv (repo mc : Str) (tok : Bool) (fetch : Nat → FetchResult)
    (cat : Str) (st : MetaState) (n : Nat)
    (hinv : ∀ f ∈ st.features, fetch f.issue_number = FetchResult.err →
      f.title = "Issue #".data ++ natToStr f.issue_number ∧ f.date_discovered = mc) :
    ∀ f ∈ (stepIssue repo mc tok fetch cat st n).features,
      fetch f.issue_number = FetchResult.err →
      f.title = "Issue #".data ++ natToStr f.issue_number ∧ f.date_discovered = mc := by
  intro f hf herr
  unfold stepIssue at hf
  split at hf
  · rcases List.mem_append.mp hf with h1 | h1
    · exact hinv f h1 herr
    · simp only [List.mem_cons, List.not_mem_nil, or_false] at h1
      subst h1
      exact ⟨rfl, rfl⟩
  · cases hfetch : fetch n with
    | err =>
      rw [hfetch] at hf
      simp only at hf
      rcases List.mem_append.mp hf with h1 | h1
      · exact hinv f h1 herr
      · simp only [List.mem_cons, List.not_mem_nil, or_false] at h1
        subst h1
        exact ⟨rfl, rfl⟩
    | ok t u c rem =>
      rw [hfetch] at hf
      simp only at hf
      rcases List.mem_append.mp hf with h1 | h1
      · exact hinv f h1 herr
      · simp only [List.mem_cons, List.not_mem_nil, or_false] at h1
        subst h1
        simp only at herr
        rw [hfetch] at herr
        cases herr

theorem metaLoop_err_inv (repo mc : Str) (tok : Bool) (fetch : Nat → FetchResult)
    (catf : Nat → Str) :
    ∀ (ns : List Nat) (st : MetaState),
      (∀ f ∈ st.features, fetch f.issue_number = FetchResult.err →
        f.title = "Issue #".data ++ natToStr f.issue_number ∧ f.date_discovered = mc) →
      ∀ f ∈ (metaLoop repo mc tok fetch catf st ns).features,
        fetch f.issue_number = FetchResult.err →
        f.title = "Issue #".data ++ natToStr f.issue_number ∧ f.date_discovered = mc := by
  intro ns
  induction ns with
  | nil => intro st hinv; exact hinv
  | cons n t ih =>
    intro st hinv
    unfold metaLoop at ih ⊢
    rw [List.foldl_cons]
    exact ih _ (stepIssue_err_inv repo mc tok fetch (catf n) st n hinv)

/-! ## The meta generator claim -/

/-- C7: the meta generator's loop emits exactly one record per referenced
issue number (in sorted order); a record whose fetch raises is a placeholder
with `Issue #<n>` as title and the meta issue's creation time as discovery
date; and once an unauthenticated response reports an exhausted rate limit,
no later number is fetched and every later record is such a placeholder. -/
theorem C7_meta_fetch_loop (repo metaCreatedAt : Str) (hasToken : Bool)
    (fetch : Nat → FetchResult) (m : List (Nat × Str)) (metaNum : Nat) :
    ((metaBuildFeatures repo metaNum metaCreatedAt hasToken fetch m).features.map
        Feature.issue_number = orderedIssueNumbers m metaNum) ∧
    (∀ f ∈ (metaBuildFeatures repo metaNum metaCreatedAt hasToken fetch m).features,
      fetch f.issue_number = FetchResult.err →
      f.title = "Issue #".data ++ natToStr f.issue_number ∧
      f.date_discovered = metaCreatedAt) ∧
    (∀ n1 n2 : Nat, ((popMeta m metaNum).map Prod.fst).Nodup →
      n1 ∈ orderedIssueNumbers m metaNum → n2 ∈ orderedIssueNumbers m metaNum →
      n1 < n2 → tripsRateLimit hasToken (fetch n1) = true →
      n2 ∉ (metaBuildFeatures repo metaNum metaCreatedAt hasToken fetch m).attempted ∧
      (∀ f ∈ (metaBuildFeatures repo metaNum metaCreatedAt hasToken fetch m).features,
        f.issue_number = n2 →
        f.title = "Issue #".data ++ natToStr n2 ∧ f.date_discovered = metaCreatedAt)) := by
  refine ⟨?_, ?_, ?_⟩
  · unfold metaBuildFeatures
    rw [metaLoop_features_map]
    rfl
  · unfold metaBuildFeatures
    apply metaLoop_err_inv
    intro f hf
    cases hf
  · intro n1 n2 hnd h1 h2 hlt htrip
    have hnums_nd : (orderedIssueNumbers m metaNum).Nodup :=
      ((List.perm_insertionSort _ _).nodup_iff).mpr hnd
    have hsorted : List.Sorted (· ≤ ·) (orderedIssueNumbers m metaNum) :=
      List.sorted_insertionSort _ _
    obtain ⟨as, bs, hsplit⟩ := List.append_of_mem h1
    have h2bs : n2 ∈ bs := by
      rw [hsplit] at h2 hsorted
      rcases List.mem_append.mp h2 with hin | hin
      · have := (List.pairwise_append.mp hsorted).2.2 n2 hin n1 (List.mem_cons_self n1 bs)
        omega
      · rcases List.mem_cons.mp hin with hin2 | hin2
        · omega
        · exact hin2
    have hndsplit : (as ++ n1 :: bs).Nodup := hsplit ▸ hnums_nd
    have hn2as : n2 ∉ as := by
      intro hmem
      exact (List.disjoint_left.mp (List.nodup_append.mp hndsplit).2.2 hmem)
        (List.mem_cons_of_mem n1 h2bs)
    have hn2n1 : n2 ≠ n1 := by
      intro he
      have := (List.nodup_cons.mp (List.nodup_append.mp hndsplit).2.1).1
      exact this (he ▸ h2bs)
    have hloop : metaBuildFeatures repo metaNum metaCreatedAt hasToken fetch m =
        metaLoop repo metaCreatedAt hasToken fetch
          (fun n => (lookupNum (popMeta m metaNum) n).getD [])
          (stepIssue repo metaCreatedAt hasToken fetch
            ((lookupNum (popMeta m metaNum) n1).getD [])
            (metaLoop repo metaCreatedAt hasToken fetch
              (fun n => (lookupNum (popMeta m metaNum) n).getD [])
              ⟨false, [], []⟩ as) n1) bs := by
      unfold metaBuildFeatures
      rw [hsplit]
      unfold metaLoop
      rw [List.foldl_append, List.foldl_cons]
    set st1 := metaLoop repo metaCreatedAt hasToken fetch
      (fun n => (lookupNum (popMeta m metaNum) n).getD []) ⟨false, [], []⟩ as with hst1
    set st2 := stepIssue repo metaCreatedAt hasToken fetch
      ((lookupNum (popMeta m metaNum) n1).getD []) st1 n1 with hst2
    have hrl : st2.rateLimited = true := stepIssue_trips _ _ _ _ _ _ _ htrip
    have hfinal : metaLoop repo metaCreatedAt hasToken fetch
        (fun n => (lookupNum (popMeta m metaNum) n).getD []) st2 bs =
        ⟨true, st2.features ++ bs.map (fun n =>
          placeholderFeature repo metaCreatedAt ((lookupNum (popMeta m metaNum) n).getD []) n),
         st2.attempted⟩ :=
      metaLoop_rate_limited_placeholders _ _ _ _ _ bs st2 hrl
    have hst2map : st2.features.map Feature.issue_number = as ++ [n1] := by
      rw [hst2, stepIssue_features_map, hst1, metaLoop_features_map]
      simp
    constructor
    · intro hmem
      rw [hloop, hfinal] at hmem
      simp only at hmem
      rw [hst2] at hmem
      rcases stepIssue_attempted repo metaCreatedAt hasToken fetch
          ((lookupNum (popMeta m metaNum) n1).getD []) st1 n1 n2 hmem with hx | hx
      · rw [hst1] at hx
        rcases metaLoop_attempted repo metaCreatedAt hasToken fetch
            (fun n => (lookupNum (popMeta m metaNum) n).getD []) as
            ⟨false, [], []⟩ n2 hx with hy | hy
        · simp at hy
        · exact hn2as hy
      · exact hn2n1 hx
    · intro f hf hfn
      rw [hloop, hfinal] at hf
      simp only at hf
      rcases List.mem_append.mp hf with h1f | h1f
      · exfalso
        have : f.issue_number ∈ st2.features.map Feature.issue_number :=
          List.mem_map_of_mem Feature.issue_number h1f
        rw [hst2map, hfn] at this
        rcases List.mem_append.mp this with hy | hy
        · exact hn2as hy
        · simp only [List.mem_cons, List.not_mem_nil, or_false] at hy
          exact hn2n1 hy
      · rcases List.mem_map.mp h1f with ⟨x, hx, hfx⟩
        subst hfx
        have hxn : x = n2 := hfn
        subst hxn
        exact ⟨rfl, rfl⟩

/-- Witness for C7 at a concrete map and fetch trace: four records in sorted
key order; the failed fetch of issue 2 yields a placeholder; after issue 3
reports zero remaining (unauthenticated), issue 5 is never fetched and its
record is a placeholder. -/
theorem C7_witness :
    ((metaBuildFeatures "o/r".data 223 "2020-05-05T00:00:00Z".data false
        (fun n => if n = 2 then FetchResult.err
                  else if n = 3 then FetchResult.ok (some "T3".data) none none (some 0)
                  else FetchResult.ok (some "T".data) none none (some 10))
        [(3, "CatA".data), (2, "CatB".data), (7, "CatA".data), (223, "X".data),
         (5, "CatC".data)]).features.map Feature.issue_number =
      orderedIssueNumbers
        [(3, "CatA".data), (2, "CatB".data), (7, "CatA".data), (223, "X".data),
         (5, "CatC".data)] 223) ∧
    (5 ∉ (metaBuildFeatures "o/r".data 223 "2020-05-05T00:00:00Z".data false
        (fun n => if n = 2 then FetchResult.err
                  else if n = 3 then FetchResult.ok (some "T3".data) none none (some 0)
                  else FetchResult.ok (some "T".data) none none (some 10))
        [(3, "CatA".data), (2, "CatB".data), (7, "CatA".data), (223, "X".data),
         (5, "CatC".data)]).attempted) := by
  constructor
  · exact (C7_meta_fetch_loop "o/r".data "2020-05-05T00:00:00Z".data false _ _ 223).1
  · exact ((C7_meta_fetch_loop "o/r".data "2020-05-05T00:00:00Z".data false _ _ 223).2.2
      3 5 (by decide) (by decide) (by decide) (by decide) (by decide)).1

/-! ## Lemmas about the dev server -/

theorem run_script_ok_iff (s : Str) (o : ScriptOutcome) (t : Nat) :
    (run_script s o t).ok = true ↔ (run_script s o t).returncode = 0 := by
  cases o with
  | missing =>
    simp only [run_script]
    constructor
    · intro h; cases h
    · intro h; omega
  | completed rc out err =>
    simp [run_script]
  | timedOut out err =>
    simp only [run_script]
    constructor
    · intro h; cases h
    · intro h; omega

theorem all_ok_iff_returncodes (rs : List ScriptResult)
    (h : ∀ r ∈ rs, (r.ok = true ↔ r.returncode = 0)) :
    (rs.all ScriptResult.ok = true ↔ ∀ r ∈ rs, r.returncode = 0) := by
  rw [List.all_eq_true]
  constructor
  · intro ha r hr
    exact (h r hr).mp (ha r hr)
  · intro ha r hr
    exact (h r hr).mpr (ha r hr)

/-! ## The dev server claim -/

/-- C9: for a POST to one of the three refresh endpoints, the response's
top-level `ok` is true exactly when every invoked script result carries exit
code 0; a missing script or a timeout becomes a per-script result with `ok`
false rather than an exception; any other POST path yields the not-found
JSON error with `ok` false. -/
theorem C9_do_POST_ok_semantics (env : Str → ScriptOutcome) (t : Nat) (path : Str) :
    (path ∈ refreshPaths →
      ((do_POST env t path).ok = true ↔
        ∀ r ∈ (do_POST env t path).results, r.returncode = 0)) ∧
    (∀ (s : Str) (o : ScriptOutcome),
      (o = ScriptOutcome.missing ∨ ∃ out err, o = ScriptOutcome.timedOut out err) →
      (run_script s o t).ok = false) ∧
    (path ∉ refreshPaths →
      (do_POST env t path).status = 404 ∧ (do_POST env t path).ok = false ∧
      (do_POST env t path).error = some ("Unknown endpoint: ".data ++ path)) := by
  refine ⟨?_, ?_, ?_⟩
  · intro hmem
    have hmem3 : path = "/__refresh_all".data ∨ path = "/__refresh_meta".data ∨
        path = "/__refresh_both".data := by
      simpa [refreshPaths] using hmem
    rcases hmem3 with hp | hp | hp
    · subst hp
      have hres : do_POST env t "/__refresh_all".data =
          ⟨if [run_script allIssuesScript (env allIssuesScript) t].all ScriptResult.ok
              then 200 else 500,
           [run_script allIssuesScript (env allIssuesScript) t].all ScriptResult.ok,
           [run_script allIssuesScript (env allIssuesScript) t], none⟩ := by
        unfold do_POST
        rw [if_pos (by decide), if_pos (by decide)]
      rw [hres]
      apply all_ok_iff_returncodes
      intro r hr
      rcases List.mem_cons.mp hr with h1 | h1
      · subst h1
        exact run_script_ok_iff _ _ _
      · cases h1
    · subst hp
      have hres : do_POST env t "/__refresh_meta".data =
          ⟨if [run_script metaScript (env metaScript) t].all ScriptResult.ok
              then 200 else 500,
           [run_script metaScript (env metaScript) t].all ScriptResult.ok,
           [run_script metaScript (env metaScript) t], none⟩ := by
        unfold do_POST
        rw [if_pos (by decide), if_neg (by decide), if_pos (by decide)]
      rw [hres]
      apply all_ok_iff_returncodes
      intro r hr
      rcases List.mem_cons.mp hr with h1 | h1
      · subst h1
        exact run_script_ok_iff _ _ _
      · cases h1
    · subst hp
      have hres : do_POST env t "/__refresh_both".data =
          ⟨if [run_script metaScript (env metaScript) t,
               run_script allIssuesScript (env allIssuesScript) t].all ScriptResult.ok
              then 200 else 500,
           [run_script metaScript (env metaScript) t,
            run_script allIssuesScript (env allIssuesScript) t].all ScriptResult.ok,
           [run_script metaScript (env metaScript) t,
            run_script allIssuesScript (env allIssuesScript) t], none⟩ := by
        unfold do_POST
        rw [if_pos (by decide), if_neg (by decide), if_neg (by decide)]
      rw [hres]
      apply all_ok_iff_returncodes
      intro r hr
      rcases List.mem_cons.mp hr with h1 | h1
      · subst h1
        exact run_script_ok_iff _ _ _
      · rcases List.mem_cons.mp h1 with h2 | h2
        · subst h2
          exact run_script_ok_iff _ _ _
        · cases h2
  · intro s o ho
    rcases ho with ho | ⟨out, err, ho⟩ <;> subst ho <;> rfl
  · intro hnot
    unfold do_POST
    rw [if_neg hnot]
    exact ⟨rfl, rfl, rfl⟩

/-- Witness for C9: with the meta script succeeding and the all-issues
script timing out, `/__refresh_both` reports `ok = false` (a returncode of
124 is present), a missing script's result has `ok = false`, and an unknown
path yields the 404 JSON error. -/
theorem C9_witness :
    ((do_POST (fun s => if s = metaScript then ScriptOutcome.completed 0 [] []
        else ScriptOutcome.timedOut [] []) 120 "/__refresh_both".data).ok = true ↔
      ∀ r ∈ (do_POST (fun s => if s = metaScript then ScriptOutcome.completed 0 [] []
        else ScriptOutcome.timedOut [] []) 120 "/__refresh_both".data).results,
        r.returncode = 0) ∧
    (run_script metaScript ScriptOutcome.missing 120).ok = false ∧
    (do_POST (fun _ => ScriptOutcome.missing) 120 "/nope".data).status = 404 := by
  refine ⟨?_, ?_, ?_⟩
  · exact (C9_do_POST_ok_semantics _ 120 _).1 (by decide)
  · exact (C9_do_POST_ok_semantics (fun _ => ScriptOutcome.missing) 120 []).2.1
      metaScript ScriptOutcome.missing (Or.inl rfl)
  · exact ((C9_do_POST_ok_semantics _ 120 _).2.2 (by decide)).1

end Guac
